import Mathlib

/-!
# RNBO-OSC plugin shell: parameter mapping and buffer forwarding

A shallow embedding of `Source/PluginProcessor.cpp` / `Source/PluginProcessor.h`.

* `V` stands for C++ `float` and `R` for C++ `double`.  The shell never does arithmetic on
  either; it only carries such values from one object to another, so both are type
  parameters and "the same value" is plain equality.
* `juce::String` is `String`; `RNBO::ParameterIndex`, `RNBO::Index` and `size_t` are `Nat`;
  C++ `int` is `Int`.
* A step that dereferences a null pointer, or reads a DSP parameter that does not exist,
  has no defined result in C++; such a step yields `none`.
* `jassert` lines (PluginProcessor.cpp 76, 80, 81) do not touch the state and are left out.
-/

namespace OSC

/-! ## The generated DSP object -/

/-- The fields of `RNBO::ParameterInfo` read by the shell. -/
structure ParameterInfo (V : Type) where
  visible : Bool
  min : V
  max : V
deriving DecidableEq, Repr

/-- One parameter slot of the DSP object: its id, its info record and its current value. -/
structure Parameter (V : Type) where
  id : String
  info : ParameterInfo V
  value : V
deriving DecidableEq, Repr

/-- A call of `prepareToProcess` or `process` received by the DSP object.  For `process`
the two pointer arguments are recorded as addresses. -/
inductive DspCall (R : Type) where
  | prepareToProcess (sampleRate : R) (maxBlockSize : Nat)
  | process (inputs : Nat) (numInputs : Nat) (outputs : Nat) (numOutputs : Nat)
      (sampleFrames : Nat)
deriving DecidableEq, Repr

/-- Modelled from the spec: `RNBO::CoreObject` (header `RNBO.h`, generated by the export
tool, not part of `Source/`).  The object is a table of parameters addressed by index,
and the record of the audio calls it has received, oldest first. -/
structure CoreObject (V R : Type) where
  params : List (Parameter V)
  calls : List (DspCall R)
deriving DecidableEq, Repr

namespace CoreObject

variable {V R : Type}

/-- Modelled from the spec: `RNBO::CoreObject::getNumParameters`. -/
def getNumParameters (o : CoreObject V R) : Nat := o.params.length

/-- Modelled from the spec: `RNBO::CoreObject::getParameterInfo(i, &info)`; `none` when
there is no parameter `i`. -/
def getParameterInfo (o : CoreObject V R) (i : Nat) : Option (ParameterInfo V) :=
  (o.params[i]?).map (fun prm => prm.info)

/-- Modelled from the spec: `RNBO::CoreObject::getParameterId(i)`; `none` when there is no
parameter `i`. -/
def getParameterId (o : CoreObject V R) (i : Nat) : Option String :=
  (o.params[i]?).map (fun prm => prm.id)

/-- Modelled from the spec: `RNBO::CoreObject::getParameterValue(i)`; `none` when there is
no parameter `i`. -/
def getParameterValue (o : CoreObject V R) (i : Nat) : Option V :=
  (o.params[i]?).map (fun prm => prm.value)

/-- Modelled from the spec: `RNBO::CoreObject::setParameterValue(i, v)` stores `v` as the
value of parameter `i` and touches nothing else; an index with no parameter is ignored. -/
def setParameterValue (o : CoreObject V R) (i : Nat) (v : V) : CoreObject V R :=
  { o with params := o.params.modify (fun prm => { prm with value := v }) i }

/-- Modelled from the spec: `RNBO::CoreObject::prepareToProcess(sampleRate, maxBlockSize)`,
recorded in the call log. -/
def prepareToProcess (o : CoreObject V R) (sampleRate : R) (maxBlockSize : Nat) :
    CoreObject V R :=
  { o with calls := o.calls ++ [DspCall.prepareToProcess sampleRate maxBlockSize] }

/-- Modelled from the spec: `RNBO::CoreObject::process(in, nIn, out, nOut, frames)`,
recorded in the call log. -/
def process (o : CoreObject V R) (inputs numInputs outputs numOutputs sampleFrames : Nat) :
    CoreObject V R :=
  { o with calls := o.calls ++
      [DspCall.process inputs numInputs outputs numOutputs sampleFrames] }

end CoreObject

/-! ## The host side -/

/-- A float parameter of the host parameter tree: id, range and current raw value. -/
structure RangedParameter (V : Type) where
  paramID : String
  rangeStart : V
  rangeEnd : V
  value : V
deriving DecidableEq, Repr

/-- The part of `juce::AudioProcessorValueTreeState` used by the shell: the parameters of
the layout and the ids on which this processor is registered as listener. -/
structure AudioProcessorValueTreeState (V : Type) where
  parameters : List (RangedParameter V)
  listeners : List String
deriving DecidableEq, Repr

namespace AudioProcessorValueTreeState

variable {V : Type}

/-- Pointer to the parameter with the given id (`getParameter`), `none` for `nullptr`. -/
def getParameter (t : AudioProcessorValueTreeState V) (paramID : String) :
    Option (RangedParameter V) :=
  t.parameters.find? (fun prm => prm.paramID == paramID)

/-- The value behind `getRawParameterValue(paramID)`, `none` when that pointer is null. -/
def getRawParameterValue (t : AudioProcessorValueTreeState V) (paramID : String) :
    Option V :=
  (t.getParameter paramID).map (fun prm => prm.value)

/-- Registers the processor as listener of `paramID`; nothing happens for an id the
tree does not have. -/
def addParameterListener (t : AudioProcessorValueTreeState V) (paramID : String) :
    AudioProcessorValueTreeState V :=
  match t.getParameter paramID with
  | some _ => { t with listeners := t.listeners ++ [paramID] }
  | none => t

end AudioProcessorValueTreeState

/-- A `juce::AudioBuffer<float>` as the shell sees it: channel count, sample count and the
address returned by `getArrayOfWritePointers()`. -/
structure AudioBuffer where
  numChannels : Int
  size : Int
  channels : Nat
deriving DecidableEq, Repr

namespace AudioBuffer

def getNumChannels (b : AudioBuffer) : Int := b.numChannels

def getNumSamples (b : AudioBuffer) : Int := b.size

def getArrayOfWritePointers (b : AudioBuffer) : Nat := b.channels

end AudioBuffer

/-- A `juce::MidiBuffer`: its raw byte array. -/
structure MidiBuffer where
  data : List Nat
deriving DecidableEq, Repr

/-- Conversion `static_cast<size_t>(x)` of an `int` on a 64-bit target. -/
def static_cast_size_t (x : Int) : Nat := (x % 2 ^ 64).toNat

/-! ## `std::unordered_map<juce::String, RNBO::ParameterIndex>` -/

/-- The id-to-index table, one entry per key. -/
abbrev ParamIndexMap := List (String × Nat)

namespace ParamIndexMap

/-- Lookup without insertion (`find`). -/
def find : ParamIndexMap → String → Option Nat
  | [], _ => none
  | (k, v) :: m, key => if k = key then some v else find m key

/-- The statement `m[key] = v`: `operator[]` yields the slot of `key`, creating it when the
key is absent, and the assignment stores `v` there. -/
def assign : ParamIndexMap → String → Nat → ParamIndexMap
  | [], key, v => [(key, v)]
  | (k, w) :: m, key, v => if k = key then (k, v) :: m else (k, w) :: assign m key v

/-- The expression `m[key]` read as a value: the stored index when `key` is present;
otherwise an entry with the value-initialised index `0` is created and `0` is read. -/
def subscript (m : ParamIndexMap) (key : String) : Nat × ParamIndexMap :=
  match find m key with
  | some v => (v, m)
  | none => (0, assign m key 0)

end ParamIndexMap

/-! ## The processor -/

/-- The data members of `OSCAudioProcessor` (PluginProcessor.h 63-68) together with the
sample rate kept by the `juce::AudioProcessor` base class. -/
structure OSCAudioProcessor (V R : Type) where
  apvts : AudioProcessorValueTreeState V
  rnboObject : CoreObject V R
  apvtsParamIdToRnboParamIndex : ParamIndexMap
  sampleRate : R
deriving DecidableEq, Repr

namespace OSCAudioProcessor

variable {V R : Type}

/-- The base class accessor `getSampleRate()`. -/
def getSampleRate (p : OSCAudioProcessor V R) : R := p.sampleRate

/-- One pass through the body of the constructor loop (PluginProcessor.cpp 67-87) for
index `i`. -/
def ctorBody (i : Nat) (p : OSCAudioProcessor V R) : Option (OSCAudioProcessor V R) :=
  match p.rnboObject.getParameterInfo i with
  | none => none
  | some info =>
    if info.visible then
      match p.rnboObject.getParameterId i with
      | none => none
      | some paramID =>
        let map := p.apvtsParamIdToRnboParamIndex.assign paramID i
        let apvts := p.apvts.addParameterListener paramID
        match apvts.getRawParameterValue paramID with
        | none => none
        | some v =>
          some { p with
            apvtsParamIdToRnboParamIndex := map
            apvts := apvts
            rnboObject := p.rnboObject.setParameterValue i v }
    else some p

/-- The constructor (PluginProcessor.cpp 50-89).  `apvts` is the tree built from
`createParameterLayout()`, `rnboObject` the freshly constructed DSP object, and the map
starts empty.  The loop runs `i = 0, 1, ...` while `i < getNumParameters()`; the body
never changes that count (`ctorBody_getNumParameters`), so the indices visited are
`0 .. getNumParameters() - 1` of the initial object. -/
def ctor (apvts : AudioProcessorValueTreeState V) (rnboObject : CoreObject V R)
    (sampleRate : R) : Option (OSCAudioProcessor V R) :=
  (List.range rnboObject.getNumParameters).foldlM (fun p i => ctorBody i p)
    { apvts := apvts
      rnboObject := rnboObject
      apvtsParamIdToRnboParamIndex := []
      sampleRate := sampleRate }

/-- The state after the first `j` passes of the constructor loop. -/
def ctorSteps (apvts : AudioProcessorValueTreeState V) (rnboObject : CoreObject V R)
    (sampleRate : R) (j : Nat) : Option (OSCAudioProcessor V R) :=
  (List.range j).foldlM (fun p i => ctorBody i p)
    { apvts := apvts
      rnboObject := rnboObject
      apvtsParamIdToRnboParamIndex := []
      sampleRate := sampleRate }

/-- What holds of the processor `q` once the loop has handled the indices below `j`,
starting from the tree `apvts`, the DSP object `o` and an empty table. -/
structure CtorInv (apvts : AudioProcessorValueTreeState V) (o : CoreObject V R) (sr : R)
    (j : Nat) (q : OSCAudioProcessor V R) : Prop where
  parameters_eq : q.apvts.parameters = apvts.parameters
  sampleRate_eq : q.sampleRate = sr
  calls_eq : q.rnboObject.calls = o.calls
  length_eq : q.rnboObject.getNumParameters = o.getNumParameters
  visible_set : ∀ (i : Nat) (prm : Parameter V), i < j → o.params[i]? = some prm → prm.info.visible = true →
    ∃ v, apvts.getRawParameterValue prm.id = some v ∧
      q.rnboObject.params[i]? = some { prm with value := v }
  hidden_kept : ∀ (i : Nat) (prm : Parameter V), o.params[i]? = some prm → prm.info.visible = false →
    q.rnboObject.params[i]? = some prm
  later_kept : ∀ i : Nat, j ≤ i → q.rnboObject.params[i]? = o.params[i]?
  map_sound : ∀ (key : String) (idx : Nat), q.apvtsParamIdToRnboParamIndex.find key = some idx →
    idx < j ∧ ∃ prm, o.params[idx]? = some prm ∧ prm.id = key ∧ prm.info.visible = true
  map_last : ∀ (idx : Nat) (prm : Parameter V), idx < j → o.params[idx]? = some prm → prm.info.visible = true →
    (∀ (i : Nat) (prm' : Parameter V), idx < i → i < j → o.params[i]? = some prm' → prm'.info.visible = true →
      prm'.id ≠ prm.id) →
    q.apvtsParamIdToRnboParamIndex.find prm.id = some idx

/-- `getNumPrograms` (PluginProcessor.cpp 133-137). -/
def getNumPrograms (_p : OSCAudioProcessor V R) : Int := 1

/-- `getCurrentProgram` (PluginProcessor.cpp 139-142). -/
def getCurrentProgram (_p : OSCAudioProcessor V R) : Int := 0

/-- `setCurrentProgram` (PluginProcessor.cpp 144-147). -/
def setCurrentProgram (p : OSCAudioProcessor V R) (_index : Int) : OSCAudioProcessor V R := p

/-- `getProgramName` (PluginProcessor.cpp 149-153). -/
def getProgramName (_p : OSCAudioProcessor V R) (_index : Int) : String := ""

/-- `changeProgramName` (PluginProcessor.cpp 155-159). -/
def changeProgramName (p : OSCAudioProcessor V R) (_index : Int) (_newName : String) :
    OSCAudioProcessor V R := p

/-- `prepareToPlay` (PluginProcessor.cpp 162-165). -/
def prepareToPlay (p : OSCAudioProcessor V R) (sampleRate : R) (samplesPerBlock : Int) :
    OSCAudioProcessor V R :=
  { p with rnboObject :=
      p.rnboObject.prepareToProcess sampleRate (static_cast_size_t samplesPerBlock) }

/-- `releaseResources` (PluginProcessor.cpp 167-171). -/
def releaseResources (p : OSCAudioProcessor V R) : OSCAudioProcessor V R := p

/-- `processBlock` (PluginProcessor.cpp 199-212). -/
def processBlock (p : OSCAudioProcessor V R) (buffer : AudioBuffer) (_midiMessages : MidiBuffer) :
    OSCAudioProcessor V R :=
  let bufferSize := buffer.getNumSamples
  let o := p.rnboObject.prepareToProcess p.getSampleRate (static_cast_size_t bufferSize)
  { p with rnboObject :=
      (o.process buffer.getArrayOfWritePointers (static_cast_size_t buffer.getNumChannels)
        buffer.getArrayOfWritePointers (static_cast_size_t buffer.getNumChannels)
        (static_cast_size_t bufferSize)) }

/-- `parameterChanged` (PluginProcessor.cpp 241-244). -/
def parameterChanged (p : OSCAudioProcessor V R) (parameterID : String) (newValue : V) :
    OSCAudioProcessor V R :=
  let r := p.apvtsParamIdToRnboParamIndex.subscript parameterID
  { p with
    apvtsParamIdToRnboParamIndex := r.2
    rnboObject := p.rnboObject.setParameterValue r.1 newValue }

end OSCAudioProcessor

/-- The two bus channel sets that `isBusesLayoutSupported` reads from a
`juce::AudioProcessor::BusesLayout`; `S` is `juce::AudioChannelSet`. -/
structure BusesLayout (S : Type) where
  mainInput : S
  mainOutput : S

namespace BusesLayout

def getMainInputChannelSet {S : Type} (l : BusesLayout S) : S := l.mainInput

def getMainOutputChannelSet {S : Type} (l : BusesLayout S) : S := l.mainOutput

end BusesLayout

/-- `isBusesLayoutSupported` (PluginProcessor.cpp 174-196).  The two build flags
`JucePlugin_IsMidiEffect` and `JucePlugin_IsSynth` are arguments, and `mono`, `stereo` are
the values of `juce::AudioChannelSet::mono()` and `juce::AudioChannelSet::stereo()`. -/
def isBusesLayoutSupported {S : Type} [DecidableEq S] (JucePlugin_IsMidiEffect : Bool)
    (JucePlugin_IsSynth : Bool) (mono stereo : S) (layouts : BusesLayout S) : Bool :=
  if JucePlugin_IsMidiEffect then true
  else
    if layouts.getMainOutputChannelSet ≠ mono ∧ layouts.getMainOutputChannelSet ≠ stereo then
      false
    else if ¬ JucePlugin_IsSynth ∧
        layouts.getMainOutputChannelSet ≠ layouts.getMainInputChannelSet then
      false
    else true

/-- A call the host can make on a constructed processor. -/
inductive HostCall (V R : Type) where
  | parameterChanged (parameterID : String) (newValue : V)
  | setCurrentProgram (index : Int)
  | changeProgramName (index : Int) (newName : String)
  | prepareToPlay (sampleRate : R) (samplesPerBlock : Int)
  | releaseResources
  | processBlock (buffer : AudioBuffer) (midiMessages : MidiBuffer)

/-- The effect of one host call on the processor. -/
def HostCall.apply {V R : Type} (p : OSCAudioProcessor V R) : HostCall V R → OSCAudioProcessor V R
  | .parameterChanged parameterID newValue => p.parameterChanged parameterID newValue
  | .setCurrentProgram index => p.setCurrentProgram index
  | .changeProgramName index newName => p.changeProgramName index newName
  | .prepareToPlay sampleRate samplesPerBlock => p.prepareToPlay sampleRate samplesPerBlock
  | .releaseResources => p.releaseResources
  | .processBlock buffer midiMessages => p.processBlock buffer midiMessages

/-- The processor after a sequence of host calls, first call first. -/
def runCalls {V R : Type} (p : OSCAudioProcessor V R) (cs : List (HostCall V R)) :
    OSCAudioProcessor V R :=
  cs.foldl HostCall.apply p

/-! ## A concrete instance used for evaluation -/

/-- A DSP object with two visible parameters and a hidden one. -/
def sampleObject : CoreObject Int Int :=
  { params :=
      [ { id := "volume", info := { visible := true, min := 0, max := 2 }, value := 0 },
        { id := "hidden", info := { visible := false, min := 0, max := 1 }, value := 5 },
        { id := "freq", info := { visible := true, min := 200, max := 1000 }, value := 0 } ]
    calls := [] }

/-- A parameter tree with the two parameters of `createParameterLayout()` at their default
values. -/
def sampleTree : AudioProcessorValueTreeState Int :=
  { parameters :=
      [ { paramID := "volume", rangeStart := 0, rangeEnd := 2, value := 1 },
        { paramID := "freq", rangeStart := 200, rangeEnd := 1000, value := 440 } ]
    listeners := [] }

/-- The processor built from `sampleTree` and `sampleObject`. -/
def sampleProcessor : OSCAudioProcessor Int Int :=
  { apvts := { sampleTree with listeners := ["volume", "freq"] }
    rnboObject :=
      { params :=
          [ { id := "volume", info := { visible := true, min := 0, max := 2 }, value := 1 },
            { id := "hidden", info := { visible := false, min := 0, max := 1 }, value := 5 },
            { id := "freq", info := { visible := true, min := 200, max := 1000 },
              value := 440 } ]
        calls := [] }
    apvtsParamIdToRnboParamIndex := [("volume", 0), ("freq", 2)]
    sampleRate := 44100 }

/-- Host calls made on `sampleProcessor` before the calls under study. -/
def sampleCalls : List (HostCall Int Int) :=
  [ HostCall.prepareToPlay 48000 256,
    HostCall.processBlock { numChannels := 2, size := 256, channels := 4096 } { data := [] },
    HostCall.setCurrentProgram 3,
    HostCall.parameterChanged "volume" 2 ]

/-- A stereo buffer of 512 samples. -/
def sampleBuffer : AudioBuffer := { numChannels := 2, size := 512, channels := 4096 }

/-! ## Facts about the id-to-index table -/

namespace ParamIndexMap

theorem find_assign_self (m : ParamIndexMap) (key : String) (v : Nat) :
    find (assign m key v) key = some v := by
  induction m with
  | nil => simp [assign, find]
  | cons e m ih =>
    obtain ⟨k, w⟩ := e
    by_cases h : k = key
    · simp [assign, find, h]
    · simp [assign, find, h, ih]

theorem find_assign_of_ne (m : ParamIndexMap) {key other : String} (v : Nat)
    (h : other ≠ key) : find (assign m key v) other = find m other := by
  induction m with
  | nil =>
    have h' : ¬ key = other := fun e => h e.symm
    simp [assign, find, h']
  | cons e m ih =>
    obtain ⟨k, w⟩ := e
    by_cases hk : k = key
    · subst hk
      have h' : ¬ k = other := fun e => h e.symm
      simp [assign, find, h']
    · by_cases ho : k = other
      · subst ho
        simp [assign, find, h]
      · simp [assign, find, hk, ho, ih]

theorem subscript_of_find {m : ParamIndexMap} {key : String} {v : Nat}
    (h : find m key = some v) : subscript m key = (v, m) := by
  simp [subscript, h]

theorem subscript_of_not_find {m : ParamIndexMap} {key : String}
    (h : find m key = none) : subscript m key = (0, assign m key 0) := by
  simp [subscript, h]

/-- Reading `m[key]` never disturbs an entry that is already there. -/
theorem find_subscript_of_find (m : ParamIndexMap) (key : String) {other : String} {v : Nat}
    (h : find m other = some v) : find (subscript m key).2 other = some v := by
  cases hk : find m key with
  | some w => simp [subscript, hk, h]
  | none =>
    have hne : other ≠ key := by
      intro e
      subst e
      simp [hk] at h
    simp [subscript, hk, find_assign_of_ne m 0 hne, h]

end ParamIndexMap

/-! ## Facts about the DSP object -/

namespace CoreObject

variable {V R : Type}

theorem getNumParameters_setParameterValue (o : CoreObject V R) (i : Nat) (v : V) :
    (o.setParameterValue i v).getNumParameters = o.getNumParameters := by
  simp [setParameterValue, getNumParameters]

theorem params_setParameterValue_of_ne (o : CoreObject V R) {i j : Nat} (v : V) (h : j ≠ i) :
    (o.setParameterValue i v).params[j]? = o.params[j]? := by
  have h' : i ≠ j := fun e => h e.symm
  simp [setParameterValue, List.getElem?_modify, h']

theorem params_setParameterValue_self (o : CoreObject V R) (i : Nat) (v : V) :
    (o.setParameterValue i v).params[i]? =
      (o.params[i]?).map (fun prm => { prm with value := v }) := by
  simp [setParameterValue, List.getElem?_modify]

theorem calls_setParameterValue (o : CoreObject V R) (i : Nat) (v : V) :
    (o.setParameterValue i v).calls = o.calls := rfl

end CoreObject

/-! ## Facts about the parameter tree -/

namespace AudioProcessorValueTreeState

variable {V : Type}

theorem parameters_addParameterListener (t : AudioProcessorValueTreeState V) (paramID : String) :
    (t.addParameterListener paramID).parameters = t.parameters := by
  unfold addParameterListener
  split <;> rfl

theorem getRawParameterValue_congr {t u : AudioProcessorValueTreeState V}
    (h : t.parameters = u.parameters) (paramID : String) :
    t.getRawParameterValue paramID = u.getRawParameterValue paramID := by
  simp [getRawParameterValue, getParameter, h]

end AudioProcessorValueTreeState

/-! ## The constructor loop -/

namespace OSCAudioProcessor

variable {V R : Type}

theorem ctor_eq_ctorSteps (apvts : AudioProcessorValueTreeState V) (o : CoreObject V R)
    (sr : R) : ctor apvts o sr = ctorSteps apvts o sr o.getNumParameters := rfl

theorem ctorSteps_zero (apvts : AudioProcessorValueTreeState V) (o : CoreObject V R) (sr : R) :
    ctorSteps apvts o sr 0 =
      some { apvts := apvts, rnboObject := o, apvtsParamIdToRnboParamIndex := [],
             sampleRate := sr } := rfl

theorem ctorSteps_succ (apvts : AudioProcessorValueTreeState V) (o : CoreObject V R) (sr : R)
    (j : Nat) :
    ctorSteps apvts o sr (j + 1) = (ctorSteps apvts o sr j).bind (ctorBody j) := by
  simp [ctorSteps, List.range_succ, List.foldlM_append]

/-- What one pass of the loop body does, read off its result. -/
theorem ctorBody_eq_some {i : Nat} {p q : OSCAudioProcessor V R} (h : ctorBody i p = some q) :
    ∃ prm, p.rnboObject.params[i]? = some prm ∧
      ((prm.info.visible = false ∧ q = p) ∨
       (prm.info.visible = true ∧ ∃ v, p.apvts.getRawParameterValue prm.id = some v ∧
          q = { p with
                apvtsParamIdToRnboParamIndex := p.apvtsParamIdToRnboParamIndex.assign prm.id i
                apvts := p.apvts.addParameterListener prm.id
                rnboObject := p.rnboObject.setParameterValue i v })) := by
  unfold ctorBody at h
  cases hp : p.rnboObject.params[i]? with
  | none => simp [CoreObject.getParameterInfo, hp] at h
  | some prm =>
    refine ⟨prm, rfl, ?_⟩
    simp only [CoreObject.getParameterInfo, CoreObject.getParameterId, hp, Option.map_some'] at h
    cases hv : prm.info.visible with
    | false =>
      left
      simp [hv] at h
      exact ⟨rfl, h.symm⟩
    | true =>
      right
      simp only [hv, if_true] at h
      rw [AudioProcessorValueTreeState.getRawParameterValue_congr
        (AudioProcessorValueTreeState.parameters_addParameterListener p.apvts prm.id)] at h
      cases hr : p.apvts.getRawParameterValue prm.id with
      | none => simp [hr] at h
      | some v =>
        simp only [hr, Option.some.injEq] at h
        exact ⟨rfl, v, rfl, h.symm⟩

/-- The loop body never changes the number of DSP parameters, so the loop bound
`getNumParameters()` has the same value at every test. -/
theorem ctorBody_getNumParameters {i : Nat} {p q : OSCAudioProcessor V R}
    (h : ctorBody i p = some q) :
    q.rnboObject.getNumParameters = p.rnboObject.getNumParameters := by
  obtain ⟨prm, _, hcase⟩ := ctorBody_eq_some h
  rcases hcase with ⟨_, rfl⟩ | ⟨_, v, _, rfl⟩
  · rfl
  · exact CoreObject.getNumParameters_setParameterValue _ _ _

theorem ctorInv_zero (apvts : AudioProcessorValueTreeState V) (o : CoreObject V R) (sr : R) :
    CtorInv apvts o sr 0
      { apvts := apvts, rnboObject := o, apvtsParamIdToRnboParamIndex := [],
        sampleRate := sr } where
  parameters_eq := rfl
  sampleRate_eq := rfl
  calls_eq := rfl
  length_eq := rfl
  visible_set := fun i _ hi => absurd hi (Nat.not_lt_zero i)
  hidden_kept := fun _ _ h _ => h
  later_kept := fun _ _ => rfl
  map_sound := fun key idx h => by simp [ParamIndexMap.find] at h
  map_last := fun idx _ hi => absurd hi (Nat.not_lt_zero idx)

theorem ctorInv_step {apvts : AudioProcessorValueTreeState V} {o : CoreObject V R} {sr : R}
    {j : Nat} {p q : OSCAudioProcessor V R} (inv : CtorInv apvts o sr j p)
    (h : ctorBody j p = some q) : CtorInv apvts o sr (j + 1) q := by
  obtain ⟨prm, hprm, hcase⟩ := ctorBody_eq_some h
  have hprm0 : o.params[j]? = some prm := by
    rw [← inv.later_kept j (Nat.le_refl j)]; exact hprm
  rcases hcase with ⟨hvis, rfl⟩ | ⟨hvis, v, hv, rfl⟩
  · -- parameter `j` is hidden: nothing changes
    refine
      { parameters_eq := inv.parameters_eq
        sampleRate_eq := inv.sampleRate_eq
        calls_eq := inv.calls_eq
        length_eq := inv.length_eq
        visible_set := ?_
        hidden_kept := inv.hidden_kept
        later_kept := fun i hi => inv.later_kept i (by omega)
        map_sound := ?_
        map_last := ?_ }
    · intro i prm' hi hp hv'
      rcases Nat.lt_succ_iff_lt_or_eq.mp hi with hlt | heq
      · exact inv.visible_set i prm' hlt hp hv'
      · subst heq
        rw [hprm0] at hp
        cases hp
        rw [hvis] at hv'
        cases hv'
    · intro key idx hf
      obtain ⟨hlt, rest⟩ := inv.map_sound key idx hf
      exact ⟨by omega, rest⟩
    · intro idx prm' hi hp hv' hlast
      rcases Nat.lt_succ_iff_lt_or_eq.mp hi with hlt | heq
      · exact inv.map_last idx prm' hlt hp hv'
          (fun i p' h1 h2 => hlast i p' h1 (by omega))
      · subst heq
        rw [hprm0] at hp
        cases hp
        rw [hvis] at hv'
        cases hv'
  · -- parameter `j` is visible: it is registered and receives the tree's value
    have hv0 : apvts.getRawParameterValue prm.id = some v := by
      rw [← AudioProcessorValueTreeState.getRawParameterValue_congr inv.parameters_eq]
      exact hv
    refine
      { parameters_eq := ?_
        sampleRate_eq := inv.sampleRate_eq
        calls_eq := inv.calls_eq
        length_eq := ?_
        visible_set := ?_
        hidden_kept := ?_
        later_kept := ?_
        map_sound := ?_
        map_last := ?_ }
    · exact (AudioProcessorValueTreeState.parameters_addParameterListener _ _).trans
        inv.parameters_eq
    · exact (CoreObject.getNumParameters_setParameterValue _ _ _).trans inv.length_eq
    · intro i prm' hi hp hv'
      rcases Nat.lt_succ_iff_lt_or_eq.mp hi with hlt | heq
      · obtain ⟨w, hw, hq⟩ := inv.visible_set i prm' hlt hp hv'
        refine ⟨w, hw, ?_⟩
        show (p.rnboObject.setParameterValue j v).params[i]? = _
        rw [CoreObject.params_setParameterValue_of_ne _ _ (Nat.ne_of_lt hlt)]
        exact hq
      · subst heq
        rw [hprm0] at hp
        cases hp
        refine ⟨v, hv0, ?_⟩
        show (p.rnboObject.setParameterValue i v).params[i]? = _
        rw [CoreObject.params_setParameterValue_self, hprm]
        rfl
    · intro i prm' hp hv'
      have hne : i ≠ j := by
        intro e
        subst e
        rw [hprm0] at hp
        cases hp
        rw [hvis] at hv'
        cases hv'
      show (p.rnboObject.setParameterValue j v).params[i]? = _
      rw [CoreObject.params_setParameterValue_of_ne _ _ hne]
      exact inv.hidden_kept i prm' hp hv'
    · intro i hi
      show (p.rnboObject.setParameterValue j v).params[i]? = _
      rw [CoreObject.params_setParameterValue_of_ne _ _ (by omega)]
      exact inv.later_kept i (by omega)
    · intro key idx hf
      change (p.apvtsParamIdToRnboParamIndex.assign prm.id j).find key = some idx at hf
      by_cases hk : key = prm.id
      · subst hk
        rw [ParamIndexMap.find_assign_self] at hf
        cases hf
        exact ⟨Nat.lt_succ_self _, prm, hprm0, rfl, hvis⟩
      · rw [ParamIndexMap.find_assign_of_ne _ _ hk] at hf
        obtain ⟨hlt, rest⟩ := inv.map_sound key idx hf
        exact ⟨by omega, rest⟩
    · intro idx prm' hi hp hv' hlast
      show (p.apvtsParamIdToRnboParamIndex.assign prm.id j).find prm'.id = some idx
      rcases Nat.lt_succ_iff_lt_or_eq.mp hi with hlt | heq
      · have hne : prm'.id ≠ prm.id :=
          fun e => hlast j prm hlt (Nat.lt_succ_self _) hprm0 hvis e.symm
        rw [ParamIndexMap.find_assign_of_ne _ _ hne]
        exact inv.map_last idx prm' hlt hp hv'
          (fun i p' h1 h2 => hlast i p' h1 (by omega))
      · subst heq
        rw [hprm0] at hp
        cases hp
        exact ParamIndexMap.find_assign_self _ _ _

/-- The invariant holds after any number of completed passes. -/
theorem ctorInv_ctorSteps (apvts : AudioProcessorValueTreeState V) (o : CoreObject V R) (sr : R) :
    ∀ (j : Nat) (q : OSCAudioProcessor V R), ctorSteps apvts o sr j = some q →
      CtorInv apvts o sr j q := by
  intro j
  induction j with
  | zero =>
    intro q h
    rw [ctorSteps_zero] at h
    cases h
    exact ctorInv_zero apvts o sr
  | succ j ih =>
    intro q h
    rw [ctorSteps_succ] at h
    cases hp : ctorSteps apvts o sr j with
    | none => simp [hp] at h
    | some p =>
      rw [hp] at h
      exact ctorInv_step (ih p hp) h

/-- The constructor runs to completion exactly when the tree has a parameter for the id of
every visible DSP parameter: otherwise line 86 dereferences a null pointer. -/
theorem ctorSteps_isSome (apvts : AudioProcessorValueTreeState V) (o : CoreObject V R) (sr : R)
    (hall : ∀ prm ∈ o.params, prm.info.visible = true →
      (apvts.getRawParameterValue prm.id).isSome = true) :
    ∀ j, j ≤ o.getNumParameters → ∃ q, ctorSteps apvts o sr j = some q := by
  intro j
  induction j with
  | zero => exact fun _ => ⟨_, ctorSteps_zero apvts o sr⟩
  | succ j ih =>
    intro hj
    obtain ⟨p, hp⟩ := ih (by omega)
    have inv := ctorInv_ctorSteps apvts o sr j p hp
    have hlt : j < o.params.length := by
      simpa [CoreObject.getNumParameters] using hj
    have hget : o.params[j]? = some (o.params[j]) := List.getElem?_eq_getElem hlt
    have hget' : p.rnboObject.params[j]? = some (o.params[j]) := by
      rw [inv.later_kept j (Nat.le_refl j)]; exact hget
    rw [ctorSteps_succ, hp]
    show ∃ q, ctorBody j p = some q
    cases hvis : (o.params[j]).info.visible with
    | false =>
      exact ⟨p, by simp [ctorBody, CoreObject.getParameterInfo, hget', hvis]⟩
    | true =>
      have hsome := hall _ (List.getElem_mem hlt) hvis
      rw [← AudioProcessorValueTreeState.getRawParameterValue_congr inv.parameters_eq,
        ← AudioProcessorValueTreeState.getRawParameterValue_congr
          (AudioProcessorValueTreeState.parameters_addParameterListener p.apvts
            (o.params[j]).id)] at hsome
      obtain ⟨v, hv⟩ := Option.isSome_iff_exists.mp hsome
      refine ⟨{ p with
          apvtsParamIdToRnboParamIndex :=
            p.apvtsParamIdToRnboParamIndex.assign (o.params[j]).id j
          apvts := p.apvts.addParameterListener (o.params[j]).id
          rnboObject := p.rnboObject.setParameterValue j v }, ?_⟩
      simp [ctorBody, CoreObject.getParameterInfo, CoreObject.getParameterId,
        hget', hvis, hv]

/-- The constructor finishes whenever the tree has a parameter for the id of every visible
DSP parameter. -/
theorem ctor_finishes (apvts : AudioProcessorValueTreeState V) (o : CoreObject V R) (sr : R)
    (hall : ∀ prm ∈ o.params, prm.info.visible = true →
      (apvts.getRawParameterValue prm.id).isSome = true) :
    ∃ p, ctor apvts o sr = some p :=
  ctorSteps_isSome apvts o sr hall o.getNumParameters (Nat.le_refl _)

end OSCAudioProcessor

/-- With pairwise distinct ids, two different slots never carry the same id. -/
theorem id_ne_of_nodup {V : Type} {l : List (Parameter V)}
    (h : (l.map (fun prm => prm.id)).Nodup) {i j : Nat} {a b : Parameter V}
    (hi : l[i]? = some a) (hj : l[j]? = some b) (hne : i ≠ j) : a.id ≠ b.id := by
  intro e
  apply hne
  have hlen : i < (l.map (fun prm => prm.id)).length := by
    have := (List.getElem?_eq_some.mp hi).1
    simpa using this
  apply List.getElem?_inj hlen h
  simp [List.getElem?_map, hi, hj, e]

namespace OSCAudioProcessor

variable {V R : Type}

/-- The constructor keeps every slot's id and info; only values of visible slots move. -/
theorem ctor_slot {apvts : AudioProcessorValueTreeState V} {o : CoreObject V R} {sr : R}
    {p : OSCAudioProcessor V R} (hctor : ctor apvts o sr = some p) {i : Nat}
    {prm : Parameter V} (hp : p.rnboObject.params[i]? = some prm) :
    ∃ prm0, o.params[i]? = some prm0 ∧ prm0.id = prm.id ∧ prm0.info = prm.info := by
  have inv := ctorInv_ctorSteps apvts o sr _ p hctor
  have hlt : i < o.params.length := by
    have h1 := (List.getElem?_eq_some.mp hp).1
    have h2 := inv.length_eq
    simp only [CoreObject.getNumParameters] at h2
    omega
  have h0 : o.params[i]? = some (o.params[i]) := List.getElem?_eq_getElem hlt
  refine ⟨o.params[i], h0, ?_⟩
  cases hvis : (o.params[i]).info.visible with
  | false =>
    have := inv.hidden_kept i _ h0 hvis
    rw [hp] at this
    cases this
    exact ⟨rfl, rfl⟩
  | true =>
    obtain ⟨v, _, hq⟩ := inv.visible_set i _ hlt h0 hvis
    rw [hp] at hq
    cases hq
    exact ⟨rfl, rfl⟩

end OSCAudioProcessor

/-! ## Host calls after construction -/

namespace OSCAudioProcessor

variable {V R : Type}

theorem getNumParameters_parameterChanged (p : OSCAudioProcessor V R) (parameterID : String)
    (newValue : V) :
    (p.parameterChanged parameterID newValue).rnboObject.getNumParameters =
      p.rnboObject.getNumParameters :=
  CoreObject.getNumParameters_setParameterValue _ _ _

theorem find_parameterChanged_of_find (p : OSCAudioProcessor V R) (parameterID : String)
    (newValue : V) {key : String} {idx : Nat}
    (h : p.apvtsParamIdToRnboParamIndex.find key = some idx) :
    (p.parameterChanged parameterID newValue).apvtsParamIdToRnboParamIndex.find key =
      some idx :=
  ParamIndexMap.find_subscript_of_find _ _ h

end OSCAudioProcessor

/-- No host call changes the number of DSP parameters. -/
theorem getNumParameters_apply {V R : Type} (p : OSCAudioProcessor V R) (c : HostCall V R) :
    (HostCall.apply p c).rnboObject.getNumParameters = p.rnboObject.getNumParameters := by
  cases c with
  | parameterChanged parameterID newValue =>
    exact OSCAudioProcessor.getNumParameters_parameterChanged p parameterID newValue
  | _ => rfl

/-- No host call removes or redirects an entry of the id-to-index table. -/
theorem find_apply_of_find {V R : Type} (p : OSCAudioProcessor V R) (c : HostCall V R)
    {key : String} {idx : Nat} (h : p.apvtsParamIdToRnboParamIndex.find key = some idx) :
    (HostCall.apply p c).apvtsParamIdToRnboParamIndex.find key = some idx := by
  cases c with
  | parameterChanged parameterID newValue =>
    exact OSCAudioProcessor.find_parameterChanged_of_find p parameterID newValue h
  | _ => exact h

theorem getNumParameters_runCalls {V R : Type} (cs : List (HostCall V R)) :
    ∀ p : OSCAudioProcessor V R,
      (runCalls p cs).rnboObject.getNumParameters = p.rnboObject.getNumParameters := by
  induction cs with
  | nil => exact fun _ => rfl
  | cons c cs ih =>
    intro p
    exact (ih (HostCall.apply p c)).trans (getNumParameters_apply p c)

theorem find_runCalls_of_find {V R : Type} (cs : List (HostCall V R)) :
    ∀ (p : OSCAudioProcessor V R) {key : String} {idx : Nat},
      p.apvtsParamIdToRnboParamIndex.find key = some idx →
      (runCalls p cs).apvtsParamIdToRnboParamIndex.find key = some idx := by
  induction cs with
  | nil => exact fun _ _ _ h => h
  | cons c cs ih =>
    intro p key idx h
    exact ih (HostCall.apply p c) (find_apply_of_find p c h)

/-! ## The claims -/

/-- C1: for a processor built by the constructor and then put through any sequence of host
calls, and for every parameter id that the constructor registered in
`apvtsParamIdToRnboParamIndex`, `parameterChanged(parameterID, newValue)` finds the id still
mapped to the same index, sets the DSP parameter at that index to exactly `newValue`,
leaves every other DSP parameter as it was, and leaves the id-to-index table unchanged. -/
theorem parameterChanged_registered {V R : Type} (apvts : AudioProcessorValueTreeState V)
    (rnboObject : CoreObject V R) (sampleRate : R) (p0 : OSCAudioProcessor V R)
    (hctor : OSCAudioProcessor.ctor apvts rnboObject sampleRate = some p0)
    (cs : List (HostCall V R)) (parameterID : String) (idx : Nat)
    (hreg : p0.apvtsParamIdToRnboParamIndex.find parameterID = some idx) (newValue : V) :
    (runCalls p0 cs).apvtsParamIdToRnboParamIndex.find parameterID = some idx ∧
    ((runCalls p0 cs).parameterChanged parameterID newValue).rnboObject.getParameterValue idx =
      some newValue ∧
    (∀ j : Nat, j ≠ idx →
      ((runCalls p0 cs).parameterChanged parameterID newValue).rnboObject.params[j]? =
        (runCalls p0 cs).rnboObject.params[j]?) ∧
    ((runCalls p0 cs).parameterChanged parameterID newValue).apvtsParamIdToRnboParamIndex =
      (runCalls p0 cs).apvtsParamIdToRnboParamIndex := by
  have inv := OSCAudioProcessor.ctorInv_ctorSteps apvts rnboObject sampleRate _ p0 hctor
  have hlt : idx < (runCalls p0 cs).rnboObject.params.length := by
    have h1 := (inv.map_sound parameterID idx hreg).1
    have h2 := getNumParameters_runCalls cs p0
    have h3 := inv.length_eq
    simp only [CoreObject.getNumParameters] at h1 h2 h3
    omega
  have hfind := find_runCalls_of_find cs p0 hreg
  have hsub := ParamIndexMap.subscript_of_find hfind
  refine ⟨hfind, ?_, ?_, ?_⟩
  · simp [OSCAudioProcessor.parameterChanged, hsub, CoreObject.getParameterValue,
      CoreObject.params_setParameterValue_self, List.getElem?_eq_getElem hlt]
  · intro j hj
    simp only [OSCAudioProcessor.parameterChanged, hsub]
    exact CoreObject.params_setParameterValue_of_ne _ _ hj
  · simp [OSCAudioProcessor.parameterChanged, hsub]

/-- C2: when the constructor has finished and the ids of the DSP parameters are pairwise
distinct, `apvtsParamIdToRnboParamIndex` maps an id to an index exactly when the DSP
parameter at that index has this id and is visible; every index in the table is below
`getNumParameters()`; and the id of a parameter that is not visible is not a key. -/
theorem ctor_registers_exactly_visible {V R : Type} (apvts : AudioProcessorValueTreeState V)
    (rnboObject : CoreObject V R) (sampleRate : R) (p : OSCAudioProcessor V R)
    (hctor : OSCAudioProcessor.ctor apvts rnboObject sampleRate = some p)
    (hdistinct : (rnboObject.params.map (fun prm => prm.id)).Nodup) :
    (∀ (key : String) (idx : Nat),
      p.apvtsParamIdToRnboParamIndex.find key = some idx ↔
        ∃ prm, p.rnboObject.params[idx]? = some prm ∧ prm.id = key ∧
          prm.info.visible = true) ∧
    (∀ (key : String) (idx : Nat),
      p.apvtsParamIdToRnboParamIndex.find key = some idx →
        idx < p.rnboObject.getNumParameters) ∧
    (∀ prm ∈ p.rnboObject.params, prm.info.visible = false →
      p.apvtsParamIdToRnboParamIndex.find prm.id = none) := by
  have inv := OSCAudioProcessor.ctorInv_ctorSteps apvts rnboObject sampleRate _ p hctor
  have hiff : ∀ (key : String) (idx : Nat),
      p.apvtsParamIdToRnboParamIndex.find key = some idx ↔
        ∃ prm, p.rnboObject.params[idx]? = some prm ∧ prm.id = key ∧
          prm.info.visible = true := by
    intro key idx
    constructor
    · intro hf
      obtain ⟨hlt, prm0, hp0, hid, hvis⟩ := inv.map_sound key idx hf
      obtain ⟨v, _, hq⟩ := inv.visible_set idx prm0 hlt hp0 hvis
      exact ⟨_, hq, hid, hvis⟩
    · rintro ⟨prm, hp, hid, hvis⟩
      obtain ⟨prm0, hp0, hid0, hinfo0⟩ := OSCAudioProcessor.ctor_slot hctor hp
      have hlt : idx < rnboObject.getNumParameters := (List.getElem?_eq_some.mp hp0).1
      have hvis0 : prm0.info.visible = true := by rw [hinfo0]; exact hvis
      have := inv.map_last idx prm0 hlt hp0 hvis0
        (fun i prm' hlt' _ hp' _ => id_ne_of_nodup hdistinct hp' hp0 (by omega))
      rw [hid0, hid] at this
      exact this
  refine ⟨hiff, ?_, ?_⟩
  · intro key idx hf
    rw [inv.length_eq]
    exact (inv.map_sound key idx hf).1
  · intro prm hmem hvis
    obtain ⟨i, hlt, hget⟩ := List.getElem_of_mem hmem
    have hp : p.rnboObject.params[i]? = some prm := by
      rw [List.getElem?_eq_getElem hlt, hget]
    obtain ⟨prm0, hp0, hid0, _⟩ := OSCAudioProcessor.ctor_slot hctor hp
    cases hf : p.apvtsParamIdToRnboParamIndex.find prm.id with
    | none => rfl
    | some idx =>
      exfalso
      obtain ⟨prm', hp', hid', hvis'⟩ := (hiff prm.id idx).mp hf
      obtain ⟨prm0', hp0', hid0', _⟩ := OSCAudioProcessor.ctor_slot hctor hp'
      by_cases hidx : idx = i
      · subst hidx
        rw [hp] at hp'
        cases hp'
        rw [hvis] at hvis'
        cases hvis'
      · exact id_ne_of_nodup hdistinct hp0' hp0 hidx (by rw [hid0', hid', hid0])

/-- C3: when the constructor has finished, every visible DSP parameter holds the raw value
that the parameter tree has for the parameter with the same id, and every DSP parameter
that is not visible holds the value it had before the loop ran. -/
theorem ctor_loads_visible_values {V R : Type} (apvts : AudioProcessorValueTreeState V)
    (rnboObject : CoreObject V R) (sampleRate : R) (p : OSCAudioProcessor V R)
    (hctor : OSCAudioProcessor.ctor apvts rnboObject sampleRate = some p) :
    (∀ (i : Nat) (prm : Parameter V), rnboObject.params[i]? = some prm →
      prm.info.visible = true →
        (∃ v, p.apvts.getRawParameterValue prm.id = some v) ∧
        p.rnboObject.getParameterValue i = p.apvts.getRawParameterValue prm.id) ∧
    (∀ (i : Nat) (prm : Parameter V), rnboObject.params[i]? = some prm →
      prm.info.visible = false →
        p.rnboObject.getParameterValue i = some prm.value) ∧
    p.apvts.parameters = apvts.parameters := by
  have inv := OSCAudioProcessor.ctorInv_ctorSteps apvts rnboObject sampleRate _ p hctor
  refine ⟨?_, ?_, inv.parameters_eq⟩
  · intro i prm hp hvis
    have hlt : i < rnboObject.getNumParameters := (List.getElem?_eq_some.mp hp).1
    obtain ⟨v, hv, hq⟩ := inv.visible_set i prm hlt hp hvis
    rw [AudioProcessorValueTreeState.getRawParameterValue_congr inv.parameters_eq, hv]
    exact ⟨⟨v, rfl⟩, by simp [CoreObject.getParameterValue, hq]⟩
  · intro i prm hp hvis
    simp [CoreObject.getParameterValue, inv.hidden_kept i prm hp hvis]

theorem static_cast_size_t_of_nonneg {x : Int} (h0 : 0 ≤ x) (h1 : x < 2 ^ 31) :
    ((static_cast_size_t x : Nat) : Int) = x := by
  unfold static_cast_size_t
  have hlt : x < 2 ^ 64 := by omega
  rw [Int.emod_eq_of_lt h0 hlt]
  exact Int.toNat_of_nonneg h0

/-- C4: for every audio buffer (its channel and sample counts are non-negative `int`s) and
every MIDI buffer, `processBlock` adds exactly two calls to those the DSP object has
received: first `prepareToProcess` with the current sample rate and a block size equal to
`buffer.getNumSamples()`, then one `process` call whose input and output pointer are the
same, whose input and output channel counts both equal `buffer.getNumChannels()` and whose
sample count equals `buffer.getNumSamples()`; the result is the same for any other MIDI
buffer. -/
theorem processBlock_forwards_in_place {V R : Type} (p : OSCAudioProcessor V R)
    (buffer : AudioBuffer) (midiMessages : MidiBuffer)
    (hs0 : 0 ≤ buffer.getNumSamples) (hs1 : buffer.getNumSamples < 2 ^ 31)
    (hc0 : 0 ≤ buffer.getNumChannels) (hc1 : buffer.getNumChannels < 2 ^ 31) :
    (∃ blockSize numChannels : Nat,
      (blockSize : Int) = buffer.getNumSamples ∧
      (numChannels : Int) = buffer.getNumChannels ∧
      (p.processBlock buffer midiMessages).rnboObject.calls =
        p.rnboObject.calls ++
          [DspCall.prepareToProcess p.getSampleRate blockSize,
           DspCall.process buffer.getArrayOfWritePointers numChannels
             buffer.getArrayOfWritePointers numChannels blockSize]) ∧
    (∀ otherMidi : MidiBuffer,
      p.processBlock buffer otherMidi = p.processBlock buffer midiMessages) := by
  refine ⟨⟨static_cast_size_t buffer.getNumSamples, static_cast_size_t buffer.getNumChannels,
    static_cast_size_t_of_nonneg hs0 hs1, static_cast_size_t_of_nonneg hc0 hc1, ?_⟩,
    fun _ => rfl⟩
  simp [OSCAudioProcessor.processBlock, CoreObject.process, CoreObject.prepareToProcess]

/-- C5: in the build that is neither a MIDI effect nor a synth, `isBusesLayoutSupported`
returns true exactly when the main output channel set is mono or stereo and the main
input channel set equals the main output channel set; a layout whose output is neither
mono nor stereo is rejected, and so is a layout whose input differs from its output. -/
theorem isBusesLayoutSupported_iff {S : Type} [DecidableEq S] (mono stereo : S)
    (layouts : BusesLayout S) :
    (isBusesLayoutSupported false false mono stereo layouts = true ↔
      (layouts.getMainOutputChannelSet = mono ∨ layouts.getMainOutputChannelSet = stereo) ∧
        layouts.getMainInputChannelSet = layouts.getMainOutputChannelSet) ∧
    ((layouts.getMainOutputChannelSet ≠ mono ∧ layouts.getMainOutputChannelSet ≠ stereo) →
      isBusesLayoutSupported false false mono stereo layouts = false) ∧
    (layouts.getMainInputChannelSet ≠ layouts.getMainOutputChannelSet →
      isBusesLayoutSupported false false mono stereo layouts = false) := by
  unfold isBusesLayoutSupported
  generalize layouts.getMainOutputChannelSet = out
  generalize layouts.getMainInputChannelSet = inp
  by_cases hA : out ≠ mono ∧ out ≠ stereo
  · rw [if_neg Bool.false_ne_true, if_pos hA]
    refine ⟨⟨fun h => absurd h Bool.false_ne_true, fun h => ?_⟩, fun _ => rfl, fun _ => rfl⟩
    rcases h.1 with hm | hst
    · exact absurd hm hA.1
    · exact absurd hst hA.2
  · have hout : out = mono ∨ out = stereo := by
      by_cases hm : out = mono
      · exact Or.inl hm
      · exact Or.inr (Classical.not_not.mp fun hst => hA ⟨hm, hst⟩)
    by_cases hB : ¬ false = true ∧ out ≠ inp
    · rw [if_neg Bool.false_ne_true, if_neg hA, if_pos hB]
      exact ⟨⟨fun h => absurd h Bool.false_ne_true, fun h => absurd h.2.symm hB.2⟩,
        fun _ => rfl, fun _ => rfl⟩
    · have hio : inp = out :=
        (Classical.not_not.mp fun hne => hB ⟨Bool.false_ne_true, hne⟩).symm
      rw [if_neg Bool.false_ne_true, if_neg hA, if_neg hB]
      exact ⟨⟨fun _ => ⟨hout, hio⟩, fun _ => rfl⟩,
        fun h => absurd h hA, fun h => absurd hio h⟩

/-- C6: in the state reached from any processor by any sequence of host calls, among them
`setCurrentProgram` and `changeProgramName` with arbitrary arguments, `getNumPrograms()`
returns 1, `getCurrentProgram()` returns 0, which is a valid index below
`getNumPrograms()`, and `getProgramName(index)` returns the empty string for every
index. -/
theorem programs_fixed {V R : Type} (p : OSCAudioProcessor V R) (cs : List (HostCall V R)) :
    (runCalls p cs).getNumPrograms = 1 ∧
    1 ≤ (runCalls p cs).getNumPrograms ∧
    (runCalls p cs).getCurrentProgram = 0 ∧
    0 ≤ (runCalls p cs).getCurrentProgram ∧
    (runCalls p cs).getCurrentProgram < (runCalls p cs).getNumPrograms ∧
    (∀ index : Int, (runCalls p cs).getProgramName index = "") ∧
    (∀ (index : Int) (newName : String),
      runCalls p (cs ++ [HostCall.setCurrentProgram index,
        HostCall.changeProgramName index newName]) = runCalls p cs) := by
  refine ⟨rfl, ?_, rfl, ?_, ?_, fun _ => rfl, fun index newName => ?_⟩
  · simp [OSCAudioProcessor.getNumPrograms]
  · simp [OSCAudioProcessor.getCurrentProgram]
  · simp [OSCAudioProcessor.getCurrentProgram, OSCAudioProcessor.getNumPrograms]
  · simp [runCalls, List.foldl_append, HostCall.apply, OSCAudioProcessor.setCurrentProgram,
      OSCAudioProcessor.changeProgramName]

/-- C7, as the code behaves: for a parameter id that is not a key of
`apvtsParamIdToRnboParamIndex`, `parameterChanged(parameterID, newValue)` makes the id a key
mapped to index 0 and keeps every other entry of the table, writes `newValue` into DSP
parameter 0 when the object has one, and leaves every DSP parameter with another index as
it was. -/
theorem parameterChanged_unregistered {V R : Type} (p : OSCAudioProcessor V R)
    (parameterID : String) (newValue : V)
    (hnot : p.apvtsParamIdToRnboParamIndex.find parameterID = none) :
    (p.parameterChanged parameterID newValue).apvtsParamIdToRnboParamIndex.find parameterID =
      some 0 ∧
    (∀ key : String, key ≠ parameterID →
      (p.parameterChanged parameterID newValue).apvtsParamIdToRnboParamIndex.find key =
        p.apvtsParamIdToRnboParamIndex.find key) ∧
    (0 < p.rnboObject.getNumParameters →
      (p.parameterChanged parameterID newValue).rnboObject.getParameterValue 0 =
        some newValue) ∧
    (∀ j : Nat, j ≠ 0 →
      (p.parameterChanged parameterID newValue).rnboObject.params[j]? =
        p.rnboObject.params[j]?) := by
  have hsub := ParamIndexMap.subscript_of_not_find hnot
  refine ⟨?_, ?_, ?_, ?_⟩
  · simp only [OSCAudioProcessor.parameterChanged, hsub]
    exact ParamIndexMap.find_assign_self _ _ _
  · intro key hkey
    simp only [OSCAudioProcessor.parameterChanged, hsub]
    exact ParamIndexMap.find_assign_of_ne _ _ hkey
  · intro hpos
    have hlt : 0 < p.rnboObject.params.length := hpos
    simp [OSCAudioProcessor.parameterChanged, hsub, CoreObject.getParameterValue,
      CoreObject.params_setParameterValue_self, List.getElem?_eq_getElem hlt]
  · intro j hj
    simp only [OSCAudioProcessor.parameterChanged, hsub]
    exact CoreObject.params_setParameterValue_of_ne _ _ hj

/-! ## Evaluation at the concrete instance -/

/-- C1 at the sample processor: after `sampleCalls`, a change of `freq` to 880 lands in
DSP parameter 2. -/
theorem parameterChanged_registered_witness :
    OSCAudioProcessor.ctor sampleTree sampleObject 44100 = some sampleProcessor ∧
    sampleProcessor.apvtsParamIdToRnboParamIndex.find "freq" = some 2 ∧
    ((runCalls sampleProcessor sampleCalls).parameterChanged "freq" 880).rnboObject.getParameterValue
      2 = some 880 :=
  ⟨by decide, by decide,
    (parameterChanged_registered sampleTree sampleObject 44100 sampleProcessor (by decide)
      sampleCalls "freq" 2 (by decide) 880).2.1⟩

/-- C2 at the sample processor: `freq` is registered at index 2 and `hidden` is no key. -/
theorem ctor_registers_exactly_visible_witness :
    OSCAudioProcessor.ctor sampleTree sampleObject 44100 = some sampleProcessor ∧
    (sampleObject.params.map (fun prm => prm.id)).Nodup ∧
    (sampleProcessor.apvtsParamIdToRnboParamIndex.find "freq" = some 2 ↔
      ∃ prm, sampleProcessor.rnboObject.params[2]? = some prm ∧ prm.id = "freq" ∧
        prm.info.visible = true) :=
  ⟨by decide, by decide,
    (ctor_registers_exactly_visible sampleTree sampleObject 44100 sampleProcessor (by decide)
      (by decide)).1 "freq" 2⟩

/-- C3 at the sample processor: the visible parameter 2 (`freq`) holds the tree's value. -/
theorem ctor_loads_visible_values_witness :
    OSCAudioProcessor.ctor sampleTree sampleObject 44100 = some sampleProcessor ∧
    sampleProcessor.rnboObject.getParameterValue 2 =
      sampleProcessor.apvts.getRawParameterValue "freq" :=
  ⟨by decide,
    ((ctor_loads_visible_values sampleTree sampleObject 44100 sampleProcessor (by decide)).1 2
      { id := "freq", info := { visible := true, min := 200, max := 1000 }, value := 0 }
      (by decide) (by decide)).2⟩

/-- C4 at the sample processor and a stereo buffer of 512 samples. -/
theorem processBlock_forwards_in_place_witness :
    (0 ≤ sampleBuffer.getNumSamples ∧ sampleBuffer.getNumSamples < 2 ^ 31 ∧
      0 ≤ sampleBuffer.getNumChannels ∧ sampleBuffer.getNumChannels < 2 ^ 31) ∧
    ∃ blockSize numChannels : Nat,
      (blockSize : Int) = sampleBuffer.getNumSamples ∧
      (numChannels : Int) = sampleBuffer.getNumChannels ∧
      (sampleProcessor.processBlock sampleBuffer { data := [144, 60, 100] }).rnboObject.calls =
        sampleProcessor.rnboObject.calls ++
          [DspCall.prepareToProcess sampleProcessor.getSampleRate blockSize,
           DspCall.process sampleBuffer.getArrayOfWritePointers numChannels
             sampleBuffer.getArrayOfWritePointers numChannels blockSize] :=
  ⟨by decide,
    (processBlock_forwards_in_place sampleProcessor sampleBuffer { data := [144, 60, 100] }
      (by decide) (by decide) (by decide) (by decide)).1⟩

/-- C7 fails at the sample processor: `gain` is not a key, yet `parameterChanged("gain", 7)`
overwrites DSP parameter 0 (1 before, 7 after) and the table gains the entry `gain ↦ 0`. -/
theorem parameterChanged_unregistered_counterexample :
    sampleProcessor.apvtsParamIdToRnboParamIndex.find "gain" = none ∧
    sampleProcessor.rnboObject.getParameterValue 0 = some 1 ∧
    (sampleProcessor.parameterChanged "gain" 7).rnboObject.getParameterValue 0 = some 7 ∧
    (sampleProcessor.parameterChanged "gain" 7).apvtsParamIdToRnboParamIndex =
      [("volume", 0), ("freq", 2), ("gain", 0)] ∧
    ¬ ((∀ j : Nat, (sampleProcessor.parameterChanged "gain" 7).rnboObject.getParameterValue j =
          sampleProcessor.rnboObject.getParameterValue j) ∧
        (sampleProcessor.parameterChanged "gain" 7).apvtsParamIdToRnboParamIndex =
          sampleProcessor.apvtsParamIdToRnboParamIndex) := by
  refine ⟨by decide, by decide, by decide, by decide, ?_⟩
  intro h
  exact absurd (h.1 0) (by decide)

/-- C7 as the code behaves, at the sample processor: the id `gain` becomes a key mapped
to index 0. -/
theorem parameterChanged_unregistered_witness :
    sampleProcessor.apvtsParamIdToRnboParamIndex.find "gain" = none ∧
    (sampleProcessor.parameterChanged "gain" 7).apvtsParamIdToRnboParamIndex.find "gain" =
      some 0 :=
  ⟨by decide, (parameterChanged_unregistered sampleProcessor "gain" 7 (by decide)).1⟩

end OSC
